import Mathlib

/-!
Verification of the SSHChat message broker and chat TUI.

The definitions below are a shallow embedding of the Go sources:
* `server/message_broker.go` — `Message`, `Client`, `MessageBroker`,
  `AddClient`, `RemoveClient`, `SendMessage`, `distributeMessages`,
  `GetAllMessages`.
* `chat/tui.go` — `ChatTUI`, `NewChatTUI`, the enter-key handler of
  `ChatTUI.Run`, and the `refresh` / `fullRefresh` rendering code.

Go channels are embedded as explicit FIFO queues (`List Message`) with a
capacity bound; a non-blocking `select { case ch <- m: default: }` send is
`trySend`, which drops the element when the queue is full.  Go maps are
embedded as association lists with replace-on-insert semantics.  Wall-clock
times are naturals (milliseconds).  The `chat.ChatMessage` type mirrors
`server.Message` field for field (the adapter in the repository copies the
fields across), so a single `Message` structure embeds both.
-/

namespace SSHChat

/-- `server.Message`: `{ID, Sender, Content, Timestamp}`. -/
structure Message where
  id : Nat
  sender : String
  content : String
  timestamp : Nat
deriving DecidableEq

/-- `server.Client`: a username, its buffered channel (mailbox), a closed
flag for the Go channel, and the unused `LastSeen` field. -/
structure Client where
  username : String
  channel : List Message
  channelClosed : Bool
  lastSeen : Nat
deriving DecidableEq

/-- Capacity of every buffered channel in `message_broker.go`
(`make(chan Message, 100)` for mailboxes and for `nextMessage`). -/
def chanCap : Nat := 100

/-- Non-blocking send on a bounded channel:
`select { case ch <- m: default: /- full, skip -/ }`. -/
def trySend (cap : Nat) (q : List Message) (m : Message) : List Message :=
  if q.length < cap then q ++ [m] else q

/-- Go map lookup `mb.clients[username]`. -/
def mapLookup (k : String) : List (String × Client) → Option Client
  | [] => none
  | (k', v) :: rest => if k = k' then some v else mapLookup k rest

/-- Go map assignment `mb.clients[username] = client` (replaces any
existing entry for the key). -/
def mapInsert (k : String) (v : Client) : List (String × Client) → List (String × Client)
  | [] => [(k, v)]
  | (k', v') :: rest => if k = k' then (k, v) :: rest else (k', v') :: mapInsert k v rest

/-- Go map deletion `delete(mb.clients, username)`. -/
def mapErase (k : String) (m : List (String × Client)) : List (String × Client) :=
  m.filter (fun e => e.1 ≠ k)

/-- `server.MessageBroker`: the log, the roster, the next sequence number,
and the `nextMessage` relay channel feeding `distributeMessages`. -/
structure MessageBroker where
  messages : List Message
  clients : List (String × Client)
  nextID : Nat
  nextMessage : List Message
deriving DecidableEq

/-- `NewMessageBroker()`: empty log and roster, `nextID = 1`, empty relay. -/
def initialBroker : MessageBroker :=
  { messages := [], clients := [], nextID := 1, nextMessage := [] }

/-- `MessageBroker.AddClient`: creates a `Client` with an empty mailbox of
capacity 100 and `LastSeen = 0`, stores it under the username (replacing any
existing entry, as Go map assignment does), then non-blockingly sends every
message of the current log, in order, into the new mailbox.  Returns the
updated broker and the new client handle. -/
def AddClient (mb : MessageBroker) (username : String) : MessageBroker × Client :=
  let seeded : Client :=
    { username := username
      channel := mb.messages.foldl (fun q m => trySend chanCap q m) []
      channelClosed := false
      lastSeen := 0 }
  ({ mb with clients := mapInsert username seeded mb.clients }, seeded)

/-- `MessageBroker.RemoveClient`: if the username is present, closes its
channel and deletes the roster entry; otherwise does nothing.  The closed
handle is returned so the close is observable. -/
def RemoveClient (mb : MessageBroker) (username : String) : MessageBroker × Option Client :=
  match mapLookup username mb.clients with
  | some c =>
      ({ mb with clients := mapErase username mb.clients },
       some { c with channelClosed := true })
  | none => (mb, none)

/-- `MessageBroker.SendMessage`: builds a message with the next sequence
number, increments `nextID`, appends to the log, and non-blockingly sends the
message into the `nextMessage` relay (dropped when the relay is full). -/
def SendMessage (mb : MessageBroker) (sender content : String) (now : Nat) : MessageBroker :=
  let message : Message :=
    { id := mb.nextID, sender := sender, content := content, timestamp := now }
  { mb with
      nextID := mb.nextID + 1
      messages := mb.messages ++ [message]
      nextMessage := trySend chanCap mb.nextMessage message }

/-- One iteration of the `distributeMessages` goroutine loop: take the next
message from the relay (if any) and non-blockingly send it to every client in
the roster (full mailboxes skip). -/
def distributeOne (mb : MessageBroker) : MessageBroker :=
  match mb.nextMessage with
  | [] => mb
  | m :: rest =>
      { mb with
          nextMessage := rest
          clients := mb.clients.map (fun e => (e.1, { e.2 with channel := trySend chanCap e.2.channel m })) }

/-- `MessageBroker.GetAllMessages`: a copy of the full log. -/
def GetAllMessages (mb : MessageBroker) : List Message :=
  mb.messages

/-- A session reading one message from its mailbox channel (`<-client.Channel`,
as done by `handleIncomingMessages`): pops the head of the FIFO if nonempty. -/
def recvClient (mb : MessageBroker) (username : String) : MessageBroker × Option Message :=
  match mapLookup username mb.clients with
  | some c =>
      match c.channel with
      | [] => (mb, none)
      | m :: rest =>
          ({ mb with clients := mapInsert username { c with channel := rest } mb.clients },
           some m)
  | none => (mb, none)

/-- The operations the broker's public surface and its distribution loop can
perform, used to quantify over whole executions. -/
inductive BrokerOp where
  | post (sender content : String) (now : Nat)
  | join (username : String)
  | leave (username : String)
  | distribute
  | recv (username : String)
deriving DecidableEq

/-- One broker step; `recv` additionally yields the message the session read. -/
def stepBroker (mb : MessageBroker) : BrokerOp → MessageBroker × Option Message
  | .post s c t => (SendMessage mb s c t, none)
  | .join u => ((AddClient mb u).1, none)
  | .leave u => ((RemoveClient mb u).1, none)
  | .distribute => (distributeOne mb, none)
  | .recv u => recvClient mb u

/-- Run a sequence of operations. -/
def runOps (mb : MessageBroker) : List BrokerOp → MessageBroker
  | [] => mb
  | op :: ops => runOps (stepBroker mb op).1 ops

/-- Run a sequence of operations, collecting every message yielded by `recv`
steps, in order. -/
def runCollect (mb : MessageBroker) : List BrokerOp → MessageBroker × List Message
  | [] => (mb, [])
  | op :: ops =>
      let st := stepBroker mb op
      let rest := runCollect st.1 ops
      (rest.1, st.2.toList ++ rest.2)

/-- Number of `post` operations in a trace. -/
def countPosts : List BrokerOp → Nat
  | [] => 0
  | .post _ _ _ :: ops => countPosts ops + 1
  | _ :: ops => countPosts ops

/-!
Embedding of `chat/tui.go` (the variant with the 5-second cooldown, the
roster header and the 20-message window).  The SSH channel, the resize timer
and the terminal dimensions are external I/O and are not part of the state
the claims quantify over; the handler functions instead return the bytes they
would write.  Times are naturals in milliseconds.
-/

/-- The cooldown of the enter handler: `5000*time.Millisecond`. -/
def cooldownMs : Nat := 5000

/-- The input length cap used by the enter handler and the printable-character
branch: 200 units. -/
def inputLimit : Nat := 200

/-- `chat.ChatTUI`: the session-owned state the claims are about. -/
structure ChatTUI where
  username : String
  currentInput : String
  lastSent : Nat
  messages : List Message
  running : Bool
  refreshing : Bool
deriving DecidableEq

/-- `NewChatTUI`: empty input and message list, `lastSent: time.Now()`
(the session's creation time), `running` and `refreshing` false. -/
def NewChatTUI (username : String) (now : Nat) : ChatTUI :=
  { username := username
    currentInput := ""
    lastSent := now
    messages := []
    running := false
    refreshing := false }

/-- Go string slicing `s[:n]`: the first `n` units of the content. -/
def truncateTo (n : Nat) (s : String) : String :=
  String.mk (s.data.take n)

/-- The enter-key branch of `ChatTUI.Run` (`case '\r', '\n'`): if less than
the cooldown has elapsed since `lastSent`, `continue` (nothing happens);
otherwise, if the input is nonempty, truncate it to 200 units, post it,
record the post time, clear the buffer and write `"\r\n> "`.  Returns the new
state, the content posted to the broker (if any), and the bytes written. -/
def handleEnter (c : ChatTUI) (now : Nat) : ChatTUI × Option String × String :=
  if now - c.lastSent < cooldownMs then (c, none, "")
  else if c.currentInput = "" then (c, none, "")
  else
    let content :=
      if c.currentInput.length > inputLimit then truncateTo inputLimit c.currentInput
      else c.currentInput
    ({ c with lastSent := now, currentInput := "" }, some content, "\r\n> ")

/-- Terminal reset `"\033c"`. -/
def escReset : String := "\x1bc"

/-- Clear screen and home `"\033[2J\033[H"`. -/
def escClearHome : String := "\x1b[2J\x1b[H"

/-- Show cursor `"\033[?25h"`. -/
def escShowCursor : String := "\x1b[?25h"

/-- Two-digit zero-padded decimal, as Go's `"15:04:05"` layout produces. -/
def pad2 (n : Nat) : String :=
  if n < 10 then "0" ++ toString n else toString n

/-- `msg.Timestamp.Format("15:04:05")` for a timestamp in milliseconds. -/
def formatTimestamp (tms : Nat) : String :=
  let t := tms / 1000
  pad2 (t / 3600 % 24) ++ ":" ++ pad2 (t / 60 % 60) ++ ":" ++ pad2 (t % 60)

/-- The per-message formatting of `refresh`: System messages are rendered
`[ts] ** content **`, user messages `[ts] sender: content`. -/
def formatMessage (m : Message) : String :=
  if m.sender = "System" then
    "[" ++ formatTimestamp m.timestamp ++ "] ** " ++ m.content ++ " **\r\n"
  else
    "[" ++ formatTimestamp m.timestamp ++ "] " ++ m.sender ++ ": " ++ m.content ++ "\r\n"

/-- The message window bound of `refresh` (`if messageCount > 20`). -/
def windowSize : Nat := 20

/-- The slice of messages `refresh` draws: from
`startIdx = if count > 20 then count - 20 else 0` to the end. -/
def messageWindow (msgs : List Message) : List Message :=
  let messageCount := msgs.length
  let startIdx := if messageCount > windowSize then messageCount - windowSize else 0
  msgs.drop startIdx

/-- The roster loop of `refresh`: `for i, user := ...` writing `", "` before
every user except the first. -/
def renderRosterFrom : Nat → List String → String
  | _, [] => ""
  | i, u :: rest => (if i > 0 then ", " else "") ++ u ++ renderRosterFrom (i + 1) rest

/-- The roster as `refresh` writes it, starting at index 0. -/
def renderRoster (users : List String) : String :=
  renderRosterFrom 0 users

/-- The bytes `refresh` writes when the `refreshing` guard is clear, as a
function of the username, the roster returned by `ListUsernames` (sorted with
`sort.Strings`, modelled by insertion sort on the lexicographic order), and
the session's message list. -/
def refreshOutput (username : String) (roster : List String) (msgs : List Message) : String :=
  escReset ++ escClearHome ++ escShowCursor
    ++ "===== " ++ username ++ "@cer.sh chat =====\r\n"
    ++ "Online users: " ++ renderRoster (List.insertionSort (· ≤ ·) roster) ++ "\r\n"
    ++ "Type your message and press Enter, (5 second cooldown). Ctrl+C to quit. Ctrl+L to refresh.\r\n\r\n"
    ++ String.join ((messageWindow msgs).map formatMessage)
    ++ "> "

/-- The bytes `fullRefresh` writes when the guard is clear: the `refresh`
output followed by the current edit buffer. -/
def fullRefreshOutput (c : ChatTUI) (roster : List String) : String :=
  refreshOutput c.username roster c.messages ++ c.currentInput

/-!
A small-step interleaving model of the `refresh` re-entrancy guard
(`if c.refreshing { return }; c.refreshing = true; ...; defer refreshing = false`).
The guard is an ordinary boolean field, so the read in the `if` and the
write that sets it are two separate memory operations; two tasks (e.g. the
input loop and the `handleIncomingMessages` goroutine) run `refresh`
concurrently and their operations interleave.
-/

/-- Program counter of one `refresh` invocation. -/
inductive RenderPC where
  | start
  | passed
  | body
  | dropped
  | done
deriving DecidableEq

/-- The three atomic operations of one `refresh` invocation: reading the
flag in the `if`, the `c.refreshing = true` write, and running the drawing
body followed by the deferred `c.refreshing = false`. -/
inductive RenderAction where
  | check
  | setFlag
  | finish
deriving DecidableEq

/-- Joint state of the shared `refreshing` flag and two concurrent `refresh`
invocations; `wroteA`/`wroteB` record whether each invocation emitted bytes. -/
structure RenderRace where
  refreshing : Bool
  pcA : RenderPC
  pcB : RenderPC
  wroteA : Bool
  wroteB : Bool
deriving DecidableEq

/-- Both invocations about to evaluate the guard, flag clear. -/
def renderInit : RenderRace :=
  { refreshing := false, pcA := .start, pcB := .start, wroteA := false, wroteB := false }

/-- One atomic operation of one invocation: `check` reads the flag and either
returns early (`dropped`, nothing written, no catch-up scheduled) or
proceeds; `setFlag` performs `c.refreshing = true`; `finish` runs the body
(writing output) and the deferred `c.refreshing = false`. -/
def stepTask (flag : Bool) (pc : RenderPC) (wrote : Bool) :
    RenderAction → Option (Bool × RenderPC × Bool)
  | .check =>
      match pc with
      | .start => if flag then some (flag, .dropped, wrote) else some (flag, .passed, wrote)
      | _ => none
  | .setFlag =>
      match pc with
      | .passed => some (true, .body, wrote)
      | _ => none
  | .finish =>
      match pc with
      | .body => some (false, .done, true)
      | _ => none

/-- Interleaving step: `true` schedules task A, `false` task B. -/
def stepRender (s : RenderRace) (taskA : Bool) (a : RenderAction) : Option RenderRace :=
  if taskA then
    match stepTask s.refreshing s.pcA s.wroteA a with
    | some r => some { s with refreshing := r.1, pcA := r.2.1, wroteA := r.2.2 }
    | none => none
  else
    match stepTask s.refreshing s.pcB s.wroteB a with
    | some r => some { s with refreshing := r.1, pcB := r.2.1, wroteB := r.2.2 }
    | none => none

/-- Run a concrete interleaving. -/
def runRender (s : RenderRace) : List (Bool × RenderAction) → Option RenderRace
  | [] => some s
  | (t, a) :: rest =>
      match stepRender s t a with
      | some s' => runRender s' rest
      | none => none

/-! ### Association-list and bounded-channel lemmas -/

theorem mapLookup_mapInsert_self (k : String) (v : Client) (m : List (String × Client)) :
    mapLookup k (mapInsert k v m) = some v := by
  induction m with
  | nil => simp [mapInsert, mapLookup]
  | cons e rest ih =>
      obtain ⟨k', v'⟩ := e
      by_cases h : k = k'
      · simp [mapInsert, h, mapLookup]
      · simp [mapInsert, h, mapLookup, ih]

theorem mapLookup_mapInsert_ne (k k' : String) (v : Client) (m : List (String × Client))
    (hk : k ≠ k') : mapLookup k (mapInsert k' v m) = mapLookup k m := by
  induction m with
  | nil => simp [mapInsert, mapLookup, hk]
  | cons e rest ih =>
      obtain ⟨k₀, v₀⟩ := e
      by_cases h : k' = k₀
      · subst h
        simp [mapInsert, mapLookup, hk]
      · by_cases h2 : k = k₀
        · simp [mapInsert, h, mapLookup, h2]
        · simp [mapInsert, h, mapLookup, h2, ih]

theorem mapLookup_mapErase_self (k : String) (m : List (String × Client)) :
    mapLookup k (mapErase k m) = none := by
  induction m with
  | nil => simp [mapErase, mapLookup]
  | cons e rest ih =>
      obtain ⟨k₀, v₀⟩ := e
      by_cases h : k₀ = k
      · simpa [mapErase, h] using ih
      · have h2 : k ≠ k₀ := fun hh => h hh.symm
        simpa [mapErase, h, mapLookup, h2] using ih

theorem mapLookup_mapErase_ne (k k' : String) (m : List (String × Client))
    (hk : k ≠ k') : mapLookup k (mapErase k' m) = mapLookup k m := by
  induction m with
  | nil => simp [mapErase, mapLookup]
  | cons e rest ih =>
      obtain ⟨k₀, v₀⟩ := e
      by_cases h : k₀ = k'
      · subst h
        simpa [mapErase, mapLookup, hk] using ih
      · by_cases h2 : k = k₀
        · simp [mapErase, h, mapLookup, h2]
        · simpa [mapErase, h, mapLookup, h2] using ih

theorem mapLookup_mapClients (g : Client → Client) (k : String)
    (m : List (String × Client)) :
    mapLookup k (m.map fun e => (e.1, g e.2)) = (mapLookup k m).map g := by
  induction m with
  | nil => simp [mapLookup]
  | cons e rest ih =>
      obtain ⟨k₀, v₀⟩ := e
      by_cases h : k = k₀
      · simp [mapLookup, h]
      · simp [mapLookup, h, ih]

theorem foldl_trySend (l : List Message) (q : List Message) (h : q.length ≤ chanCap) :
    l.foldl (fun acc m => trySend chanCap acc m) q = q ++ l.take (chanCap - q.length) := by
  induction l generalizing q with
  | nil => simp
  | cons m rest ih =>
      by_cases hq : q.length < chanCap
      · rw [List.foldl_cons]
        have hsend : trySend chanCap q m = q ++ [m] := by simp [trySend, hq]
        rw [hsend, ih (q ++ [m]) (by simp; omega)]
        have hlen : (q ++ [m]).length = q.length + 1 := by simp
        rw [hlen]
        have hcap : chanCap - q.length = (chanCap - (q.length + 1)) + 1 := by omega
        rw [hcap, List.take_succ_cons, List.append_assoc]
        rfl
      · have heq : q.length = chanCap := by omega
        rw [List.foldl_cons]
        have hsend : trySend chanCap q m = q := by simp [trySend, hq]
        rw [hsend, ih q h, heq]
        simp

theorem addClient_channel (mb : MessageBroker) (u : String) :
    (AddClient mb u).2.channel = mb.messages.take chanCap := by
  simpa [AddClient] using foldl_trySend mb.messages [] (by simp [chanCap])

/-! ### Log invariant -/

/-- The broker's log has sequence numbers exactly `1, …, k` and the next
number to assign is `k + 1`. -/
def logInv (mb : MessageBroker) (k : Nat) : Prop :=
  mb.messages.map Message.id = List.range' 1 k ∧ mb.nextID = k + 1

theorem logInv_step (mb : MessageBroker) (k : Nat) (op : BrokerOp) (h : logInv mb k) :
    logInv (stepBroker mb op).1 (countPosts [op] + k) := by
  obtain ⟨h1, h2⟩ := h
  cases op with
  | post s c t =>
      refine ⟨?_, ?_⟩
      · simp only [stepBroker, SendMessage, countPosts]
        rw [List.map_append, h1]
        simp [h2, List.range'_1_concat, Nat.add_comm]
      · simp [stepBroker, SendMessage, countPosts, h2]
        omega
  | join u => exact ⟨by simpa [stepBroker, AddClient, countPosts] using h1,
      by simpa [stepBroker, AddClient, countPosts] using h2⟩
  | leave u =>
      cases hm : mapLookup u mb.clients with
      | none => exact ⟨by simpa [stepBroker, RemoveClient, hm, countPosts] using h1,
          by simpa [stepBroker, RemoveClient, hm, countPosts] using h2⟩
      | some c => exact ⟨by simpa [stepBroker, RemoveClient, hm, countPosts] using h1,
          by simpa [stepBroker, RemoveClient, hm, countPosts] using h2⟩
  | distribute =>
      cases hm : mb.nextMessage with
      | nil => exact ⟨by simpa [stepBroker, distributeOne, hm, countPosts] using h1,
          by simpa [stepBroker, distributeOne, hm, countPosts] using h2⟩
      | cons x xs => exact ⟨by simpa [stepBroker, distributeOne, hm, countPosts] using h1,
          by simpa [stepBroker, distributeOne, hm, countPosts] using h2⟩
  | recv u =>
      cases hm : mapLookup u mb.clients with
      | none => exact ⟨by simpa [stepBroker, recvClient, hm, countPosts] using h1,
          by simpa [stepBroker, recvClient, hm, countPosts] using h2⟩
      | some c =>
          cases hc : c.channel with
          | nil => exact ⟨by simpa [stepBroker, recvClient, hm, hc, countPosts] using h1,
              by simpa [stepBroker, recvClient, hm, hc, countPosts] using h2⟩
          | cons x xs => exact ⟨by simpa [stepBroker, recvClient, hm, hc, countPosts] using h1,
              by simpa [stepBroker, recvClient, hm, hc, countPosts] using h2⟩

theorem logInv_runOps (ops : List BrokerOp) (mb : MessageBroker) (k : Nat)
    (h : logInv mb k) : logInv (runOps mb ops) (countPosts ops + k) := by
  induction ops generalizing mb k with
  | nil => simpa [runOps, countPosts] using h
  | cons op ops ih =>
      have h1 := logInv_step mb k op h
      have h2 := ih _ _ h1
      have harith : countPosts (op :: ops) + k = countPosts ops + (countPosts [op] + k) := by
        cases op <;> (simp only [countPosts]; omega)
      rw [runOps, harith]
      exact h2

theorem stepBroker_append (mb : MessageBroker) (op : BrokerOp) :
    ∃ t, (stepBroker mb op).1.messages = mb.messages ++ t := by
  cases op with
  | post s c t => exact ⟨_, rfl⟩
  | join u => exact ⟨[], by simp [stepBroker, AddClient]⟩
  | leave u =>
      cases hm : mapLookup u mb.clients with
      | none => exact ⟨[], by simp [stepBroker, RemoveClient, hm]⟩
      | some c => exact ⟨[], by simp [stepBroker, RemoveClient, hm]⟩
  | distribute =>
      cases hm : mb.nextMessage with
      | nil => exact ⟨[], by simp [stepBroker, distributeOne, hm]⟩
      | cons x xs => exact ⟨[], by simp [stepBroker, distributeOne, hm]⟩
  | recv u =>
      cases hm : mapLookup u mb.clients with
      | none => exact ⟨[], by simp [stepBroker, recvClient, hm]⟩
      | some c =>
          cases hc : c.channel with
          | nil => exact ⟨[], by simp [stepBroker, recvClient, hm, hc]⟩
          | cons x xs => exact ⟨[], by simp [stepBroker, recvClient, hm, hc]⟩

theorem distributeOne_cons (mb : MessageBroker) (m : Message) (rest : List Message)
    (h : mb.nextMessage = m :: rest) :
    distributeOne mb
      = { mb with
          nextMessage := rest
          clients := mb.clients.map
            (fun e => (e.1, { e.2 with channel := trySend chanCap e.2.channel m })) } := by
  unfold distributeOne
  rw [h]

theorem mapLookup_distributeOne (mb : MessageBroker) (m : Message) (rest : List Message)
    (h : mb.nextMessage = m :: rest) (u : String) :
    mapLookup u (distributeOne mb).clients
      = (mapLookup u mb.clients).map
          (fun c => { c with channel := trySend chanCap c.channel m }) := by
  rw [distributeOne_cons mb m rest h]
  exact mapLookup_mapClients
    (fun c => { c with channel := trySend chanCap c.channel m }) u mb.clients

/-! ### Claim theorems -/

/-- C1: every trace of broker operations leaves the log with sequence numbers
exactly `1, 2, …, n` (`n` the number of posts) in order — strictly increasing
from 1, no gaps, no duplicates; every step only appends to the log (never
mutates or removes an entry); and `GetAllMessages` returns the full log in
that order. -/
theorem C1_log_sequence_and_snapshot (ops : List BrokerOp) :
    (runOps initialBroker ops).messages.map Message.id = List.range' 1 (countPosts ops)
    ∧ GetAllMessages (runOps initialBroker ops) = (runOps initialBroker ops).messages
    ∧ ∀ op, ∃ t, (stepBroker (runOps initialBroker ops) op).1.messages
        = (runOps initialBroker ops).messages ++ t := by
  have h0 : logInv initialBroker 0 := ⟨by simp [initialBroker], by simp [initialBroker]⟩
  have h := logInv_runOps ops initialBroker 0 h0
  exact ⟨by simpa using h.1, rfl, fun op => stepBroker_append _ op⟩

/-- C2 counterexample: post one message, join `bob`, then let the distributor
run.  `AddClient` seeded bob's mailbox from the log while the same message
was still in the relay, so bob receives message 1 twice — refuting "no
message is delivered to that client twice". -/
theorem C2_counterexample :
    (mapLookup "bob" (runOps initialBroker
        [.post "alice" "hi" 0, .join "bob", .distribute]).clients).map Client.channel
      = some [{ id := 1, sender := "alice", content := "hi", timestamp := 0 },
              { id := 1, sender := "alice", content := "hi", timestamp := 0 }] := by
  decide

/-- C2 amended: when the relay is empty at join time and the log fits the
mailbox capacity (100), `AddClient` delivers exactly the N log messages, in
order, into the new mailbox before returning, and after the next post and
distribution step the client's mailbox holds those N messages followed by
message N+1.  (In general the mailbox is seeded with only the first
`min(N, 100)` messages, and messages still in the relay at join time are
delivered a second time.) -/
theorem C2_amended_history_delivery (mb : MessageBroker) (u sender content : String)
    (now : Nat) (hlen : mb.messages.length < chanCap) (hrelay : mb.nextMessage = []) :
    (AddClient mb u).2.channel = mb.messages
    ∧ (mapLookup u (distributeOne (SendMessage (AddClient mb u).1 sender content now)).clients).map
        Client.channel
      = some (mb.messages
          ++ [{ id := mb.nextID, sender := sender, content := content, timestamp := now }]) := by
  have hch : (AddClient mb u).2.channel = mb.messages := by
    rw [addClient_channel]
    exact List.take_of_length_le (Nat.le_of_lt hlen)
  refine ⟨hch, ?_⟩
  have hnm : (SendMessage (AddClient mb u).1 sender content now).nextMessage
      = [{ id := mb.nextID, sender := sender, content := content, timestamp := now }] := by
    show trySend chanCap (AddClient mb u).1.nextMessage
        { id := mb.nextID, sender := sender, content := content, timestamp := now } = _
    have hx : (AddClient mb u).1.nextMessage = [] := hrelay
    rw [hx]
    simp [trySend, chanCap]
  rw [mapLookup_distributeOne _ _ _ hnm u]
  have hcl : mapLookup u (SendMessage (AddClient mb u).1 sender content now).clients
      = some (AddClient mb u).2 := by
    show mapLookup u (mapInsert u (AddClient mb u).2 mb.clients) = _
    exact mapLookup_mapInsert_self u _ mb.clients
  rw [hcl]
  simp only [Option.map_some']
  show some (trySend chanCap (AddClient mb u).2.channel
      { id := mb.nextID, sender := sender, content := content, timestamp := now }) = _
  rw [hch]
  simp [trySend, hlen]

/-- Witness for the amended C2 at a concrete broker state (one message posted
and distributed, relay empty). -/
theorem C2_amended_history_delivery_witness :
    ((runOps initialBroker [.post "a" "x" 0, .distribute]).messages.length < chanCap
      ∧ (runOps initialBroker [.post "a" "x" 0, .distribute]).nextMessage = [])
    ∧ (AddClient (runOps initialBroker [.post "a" "x" 0, .distribute]) "bob").2.channel
        = (runOps initialBroker [.post "a" "x" 0, .distribute]).messages := by
  refine ⟨⟨by decide, by decide⟩, ?_⟩
  exact (C2_amended_history_delivery _ "bob" "c" "y" 5 (by decide) (by decide)).1

/-- C3 counterexample: `alice` joins, a message is posted, delivered, and read
(her mailbox is then empty); a second `AddClient "alice"` does not fail — it
replaces the roster entry with a fresh record whose mailbox is re-seeded with
the log, so the stored `ClientRecord` changes from an empty mailbox to one
holding message 1. -/
theorem C3_counterexample :
    (mapLookup "alice" (runOps initialBroker
        [.join "alice", .post "bob" "hi" 0, .distribute, .recv "alice"]).clients).map
        Client.channel
      = some []
    ∧ (mapLookup "alice" (AddClient (runOps initialBroker
        [.join "alice", .post "bob" "hi" 0, .distribute, .recv "alice"]) "alice").1.clients).map
        Client.channel
      = some [{ id := 1, sender := "bob", content := "hi", timestamp := 0 }] := by
  exact ⟨by decide, by decide⟩

/-- C3 amended: `AddClient` never fails and performs no duplicate check — it
unconditionally stores a fresh `ClientRecord` for the username (Go map
assignment replaces any existing entry), with an empty mailbox seeded with
the first `min(N, 100)` log messages, `LastSeen = 0`, and an open channel.
The prior record's mailbox is not closed. -/
theorem C3_amended_replace (mb : MessageBroker) (u : String) :
    mapLookup u (AddClient mb u).1.clients = some (AddClient mb u).2
    ∧ (AddClient mb u).2
      = { username := u, channel := mb.messages.take chanCap
          channelClosed := false, lastSeen := 0 } := by
  constructor
  · exact mapLookup_mapInsert_self u _ mb.clients
  · have h : (AddClient mb u).2
        = { username := u, channel := (AddClient mb u).2.channel
            channelClosed := false, lastSeen := 0 } := rfl
    rw [h, addClient_channel]

/-- 101 posts with the distributor never scheduled, then alternating
distribution steps and mailbox reads by `alice`. -/
def floodOps : List BrokerOp :=
  BrokerOp.join "alice" ::
    (List.replicate 101 (BrokerOp.post "bob" "hi" 0)
      ++ List.flatten (List.replicate 101 [BrokerOp.distribute, BrokerOp.recv "alice"]))

set_option maxRecDepth 40000 in
/-- C4 counterexample: after 101 posts the log holds 101 messages but the
relay (`nextMessage`, capacity 100) dropped message 101 at the relay stage.
Draining everything — with `alice`'s mailbox never holding more than one
message, so always having room — delivers exactly messages 1–100 to her:
message 101 is in the log yet is delivered to no recipient at all, refuting
"no intermediate (relay/distribution) stage ever drops a message for all
recipients". -/
theorem C4_counterexample :
    (runCollect initialBroker floodOps).1.messages.length = 101
    ∧ (runCollect initialBroker floodOps).2.map Message.id = List.range' 1 100
    ∧ (runCollect initialBroker floodOps).1.nextMessage = []
    ∧ (mapLookup "alice" (runCollect initialBroker floodOps).1.clients).map Client.channel
      = some [] := by
  decide

/-- C4 amended: a post always appends to the log; if the relay queue
(`nextMessage`, capacity 100) is full, the posted message is dropped at the
relay stage and is never distributed to any mailbox; otherwise a distribution
step removes the head of the relay, leaves the log untouched, and delivers
the message independently into each live mailbox via a non-blocking send —
a full mailbox drops the message for that one recipient only, leaving that
client's record unchanged, and every other client's mailbox is updated
regardless. -/
theorem C4_amended_relay_and_mailbox (mb : MessageBroker) (s c : String) (t : Nat) :
    (SendMessage mb s c t).messages
      = mb.messages ++ [{ id := mb.nextID, sender := s, content := c, timestamp := t }]
    ∧ (chanCap ≤ mb.nextMessage.length → (SendMessage mb s c t).nextMessage = mb.nextMessage)
    ∧ ∀ m rest, mb.nextMessage = m :: rest →
        (distributeOne mb).messages = mb.messages
        ∧ (distributeOne mb).nextMessage = rest
        ∧ ∀ u cl, mapLookup u mb.clients = some cl →
            mapLookup u (distributeOne mb).clients
              = some { cl with channel := trySend chanCap cl.channel m }
            ∧ (chanCap ≤ cl.channel.length →
                mapLookup u (distributeOne mb).clients = some cl) := by
  refine ⟨rfl, ?_, ?_⟩
  · intro hfull
    show trySend chanCap mb.nextMessage _ = _
    unfold trySend
    rw [if_neg (by omega)]
  · intro m rest hnm
    refine ⟨?_, ?_, ?_⟩
    · rw [distributeOne_cons mb m rest hnm]
    · rw [distributeOne_cons mb m rest hnm]
    · intro u cl hcl
      have hl := mapLookup_distributeOne mb m rest hnm u
      rw [hcl] at hl
      refine ⟨hl, ?_⟩
      intro hfull
      have ht : trySend chanCap cl.channel m = cl.channel := by
        unfold trySend
        rw [if_neg (by omega)]
      rw [hl]
      show some ({ cl with channel := trySend chanCap cl.channel m } : Client) = some cl
      rw [ht]

/-- A broker whose relay channel is exactly full. -/
def fullRelayBroker : MessageBroker :=
  runOps initialBroker (List.replicate 100 (BrokerOp.post "b" "h" 0))

/-- A broker with one joined client and one undistributed message. -/
def oneRelayBroker : MessageBroker :=
  runOps initialBroker [BrokerOp.join "al", BrokerOp.post "b" "h" 0]

set_option maxRecDepth 40000 in
/-- Witness for the amended C4: a broker whose relay holds 100 messages
drops the next post at the relay stage, and a distribution step on a
one-message relay leaves the log unchanged. -/
theorem C4_amended_relay_and_mailbox_witness :
    (chanCap ≤ fullRelayBroker.nextMessage.length
      ∧ (SendMessage fullRelayBroker "b" "h" 7).nextMessage = fullRelayBroker.nextMessage)
    ∧ (oneRelayBroker.nextMessage
        = [{ id := 1, sender := "b", content := "h", timestamp := 0 }]
      ∧ (distributeOne oneRelayBroker).messages = oneRelayBroker.messages) := by
  have hfull : chanCap ≤ fullRelayBroker.nextMessage.length := by decide
  have hone : oneRelayBroker.nextMessage
      = [{ id := 1, sender := "b", content := "h", timestamp := 0 }] := by decide
  exact ⟨⟨hfull, (C4_amended_relay_and_mailbox fullRelayBroker "b" "h" 7).2.1 hfull⟩,
    ⟨hone, ((C4_amended_relay_and_mailbox oneRelayBroker "b" "h" 7).2.2 _ [] hone).1⟩⟩

/-- Content of 201 units, one over the limit. -/
def longContent : String := String.mk (List.replicate 201 'x')

set_option maxRecDepth 10000 in
/-- C5 counterexample: `SendMessage` itself neither validates nor truncates —
content of 201 units is stored verbatim (not cut to the first 200), and empty
content is accepted and stored. -/
theorem C5_counterexample :
    (SendMessage initialBroker "alice" longContent 0).messages
      = [{ id := 1, sender := "alice", content := longContent, timestamp := 0 }]
    ∧ longContent.length = 201
    ∧ (SendMessage initialBroker "alice" "" 0).messages
      = [{ id := 1, sender := "alice", content := "", timestamp := 0 }] := by
  refine ⟨rfl, by decide, rfl⟩

theorem truncateTo_of_length_le (n : Nat) (s : String) (h : s.length ≤ n) :
    truncateTo n s = s := by
  unfold truncateTo
  rw [List.take_of_length_le h]

/-- C5 amended: the non-empty check and the 200-unit truncation live in the
TUI enter handler, not in `SendMessage`: `SendMessage` stores any content
verbatim, while the enter handler posts nothing for an empty buffer and
posts exactly the first 200 units of the buffer otherwise (the buffer is
stored unchanged when it is at or under 200 units). -/
theorem C5_amended_truncation_in_tui (mb : MessageBroker) (s c : String) (t : Nat)
    (tui : ChatTUI) (now : Nat) (hcool : cooldownMs ≤ now - tui.lastSent) :
    (SendMessage mb s c t).messages
      = mb.messages ++ [{ id := mb.nextID, sender := s, content := c, timestamp := t }]
    ∧ (tui.currentInput = "" → (handleEnter tui now).2.1 = none)
    ∧ (tui.currentInput ≠ "" →
        (handleEnter tui now).2.1 = some (truncateTo inputLimit tui.currentInput))
    ∧ (tui.currentInput ≠ "" → tui.currentInput.length ≤ inputLimit →
        (handleEnter tui now).2.1 = some tui.currentInput) := by
  have hg : ¬(now - tui.lastSent < cooldownMs) := by omega
  have htr : (if tui.currentInput.length > inputLimit
      then truncateTo inputLimit tui.currentInput else tui.currentInput)
      = truncateTo inputLimit tui.currentInput := by
    split
    · rfl
    · rw [truncateTo_of_length_le _ _ (by omega)]
  refine ⟨rfl, ?_, ?_, ?_⟩
  · intro h
    simp [handleEnter, hg, h]
  · intro h
    simp [handleEnter, hg, h, htr]
  · intro h hlen
    simp [handleEnter, hg, h, htr]
    exact truncateTo_of_length_le _ _ hlen

/-- A session whose edit buffer holds 201 units. -/
def longInputTUI : ChatTUI :=
  { username := "al", currentInput := longContent, lastSent := 0, messages := []
    running := true, refreshing := false }

/-- Witness for the amended C5: a buffer of 201 units is posted as exactly
its first 200 units. -/
theorem C5_amended_truncation_in_tui_witness :
    (cooldownMs ≤ 9000 - longInputTUI.lastSent ∧ longInputTUI.currentInput ≠ "")
    ∧ (handleEnter longInputTUI 9000).2.1 = some (truncateTo inputLimit longContent) := by
  refine ⟨⟨by decide, by decide⟩, ?_⟩
  exact (C5_amended_truncation_in_tui initialBroker "a" "b" 0 longInputTUI 9000
    (by decide)).2.2.1 (by decide)

/-- C6: the enter handler of the Session is rate limited: an end-of-line
input less than 5 seconds after `lastSent` is silently ignored (state,
including the edit buffer, unchanged; nothing posted; nothing written); of
two post-triggering inputs within the cooldown window only the first is
posted; and an input after the cooldown with a nonempty buffer posts and
records the new post time. -/
theorem C6_cooldown_rate_limit (c : ChatTUI) (now now1 now2 : Nat) :
    (now - c.lastSent < cooldownMs → handleEnter c now = (c, none, ""))
    ∧ (cooldownMs ≤ now1 - c.lastSent → c.currentInput ≠ "" → now2 - now1 < cooldownMs →
        (handleEnter c now1).2.1 = some (truncateTo inputLimit c.currentInput)
        ∧ handleEnter (handleEnter c now1).1 now2 = ((handleEnter c now1).1, none, ""))
    ∧ (cooldownMs ≤ now - c.lastSent → c.currentInput ≠ "" →
        ((handleEnter c now).2.1).isSome = true ∧ (handleEnter c now).1.lastSent = now) := by
  have htr : (if c.currentInput.length > inputLimit
      then truncateTo inputLimit c.currentInput else c.currentInput)
      = truncateTo inputLimit c.currentInput := by
    split
    · rfl
    · rw [truncateTo_of_length_le _ _ (by omega)]
  refine ⟨?_, ?_, ?_⟩
  · intro h
    simp [handleEnter, h]
  · intro h1 h2 h3
    have hg : ¬(now1 - c.lastSent < cooldownMs) := by omega
    have hs1 : (handleEnter c now1).1 = { c with lastSent := now1, currentInput := "" } := by
      simp [handleEnter, hg, h2]
    refine ⟨?_, ?_⟩
    · simp [handleEnter, hg, h2, htr]
    · rw [hs1]
      simp [handleEnter, h3]
  · intro h1 h2
    have hg : ¬(now - c.lastSent < cooldownMs) := by omega
    exact ⟨by simp [handleEnter, hg, h2], by simp [handleEnter, hg, h2]⟩

/-- A session with a typed buffer, used to instantiate the TUI theorems. -/
def sampleTUI : ChatTUI :=
  { username := "al", currentInput := "hi", lastSent := 0, messages := []
    running := true, refreshing := false }

/-- Witness for C6 at concrete times 6000 and 9000 ms. -/
theorem C6_cooldown_rate_limit_witness :
    (cooldownMs ≤ 6000 - sampleTUI.lastSent ∧ sampleTUI.currentInput ≠ ""
      ∧ 9000 - 6000 < cooldownMs)
    ∧ (handleEnter sampleTUI 6000).2.1 = some (truncateTo inputLimit sampleTUI.currentInput)
    ∧ handleEnter (handleEnter sampleTUI 6000).1 9000
      = ((handleEnter sampleTUI 6000).1, none, "") := by
  refine ⟨⟨by decide, by decide, by decide⟩, ?_⟩
  exact (C6_cooldown_rate_limit sampleTUI 0 6000 9000).2.1 (by decide) (by decide) (by decide)

/-- C7: `RemoveClient` removes the roster entry and closes its mailbox; a
second call for the same username, or a call for a username never joined, is
a no-op returning no error and leaving the roster, log, sequence counter and
relay unchanged; other clients' entries are untouched. -/
theorem C7_leave_idempotent (mb : MessageBroker) (u : String) :
    RemoveClient (RemoveClient mb u).1 u = ((RemoveClient mb u).1, none)
    ∧ (mapLookup u mb.clients = none → RemoveClient mb u = (mb, none))
    ∧ (RemoveClient mb u).1.messages = mb.messages
    ∧ (RemoveClient mb u).1.nextID = mb.nextID
    ∧ (RemoveClient mb u).1.nextMessage = mb.nextMessage
    ∧ mapLookup u (RemoveClient mb u).1.clients = none
    ∧ (∀ v, v ≠ u → mapLookup v (RemoveClient mb u).1.clients = mapLookup v mb.clients)
    ∧ (∀ cl, (RemoveClient mb u).2 = some cl → cl.channelClosed = true) := by
  cases h : mapLookup u mb.clients with
  | none =>
      have h1 : RemoveClient mb u = (mb, none) := by
        simp [RemoveClient, h]
      refine ⟨?_, fun _ => h1, ?_, ?_, ?_, ?_, ?_, ?_⟩
      · rw [h1]
        exact h1
      · rw [h1]
      · rw [h1]
      · rw [h1]
      · rw [h1]
        exact h
      · intro v hv
        rw [h1]
      · intro cl hcl
        rw [h1] at hcl
        simp at hcl
  | some c =>
      have h1 : RemoveClient mb u
          = ({ mb with clients := mapErase u mb.clients },
             some { c with channelClosed := true }) := by
        simp [RemoveClient, h]
      refine ⟨?_, ?_, ?_, ?_, ?_, ?_, ?_, ?_⟩
      · rw [h1]
        simp [RemoveClient, mapLookup_mapErase_self]
      · intro h2
        simp at h2
      · rw [h1]
      · rw [h1]
      · rw [h1]
      · rw [h1]
        exact mapLookup_mapErase_self u mb.clients
      · intro v hv
        rw [h1]
        exact mapLookup_mapErase_ne v u mb.clients hv
      · intro cl hcl
        rw [h1] at hcl
        simp at hcl
        rw [← hcl]

/-- Witness for C7: removing `alice` twice from a broker she joined, and
removing a username never joined. -/
theorem C7_leave_idempotent_witness :
    (mapLookup "ghost" (runOps initialBroker [BrokerOp.join "alice"]).clients = none
      ∧ RemoveClient (runOps initialBroker [BrokerOp.join "alice"]) "ghost"
        = (runOps initialBroker [BrokerOp.join "alice"], none))
    ∧ (∀ cl, (RemoveClient (runOps initialBroker [BrokerOp.join "alice"]) "alice").2 = some cl →
        cl.channelClosed = true) := by
  refine ⟨⟨by decide, ?_⟩, ?_⟩
  · exact (C7_leave_idempotent (runOps initialBroker [BrokerOp.join "alice"]) "ghost").2.1
      (by decide)
  · exact (C7_leave_idempotent (runOps initialBroker [BrokerOp.join "alice"]) "alice").2.2.2.2.2.2.2

theorem messageWindow_eq_drop (l : List Message) :
    messageWindow l = l.drop (l.length - windowSize) := by
  show l.drop (if l.length > windowSize then l.length - windowSize else 0)
      = l.drop (l.length - windowSize)
  split
  · rfl
  · have h0 : l.length - windowSize = 0 := by omega
    rw [h0]

theorem messageWindow_length (l : List Message) :
    (messageWindow l).length = min windowSize l.length := by
  rw [messageWindow_eq_drop, List.length_drop]
  omega

/-- C8: the bytes `fullRefresh` writes are a deterministic function of the
username, the roster snapshot, the message window and the edit buffer, laid
out as: terminal reset + clear + cursor, a header with the identity and the
sorted roster (a sorted permutation of the roster snapshot), the last 20
messages (regardless of the length of the session's message list), each
timestamped, with System messages formatted distinctly, then the prompt
followed by the edit buffer. -/
theorem C8_render (c : ChatTUI) (roster : List String) :
    fullRefreshOutput c roster
      = escReset ++ escClearHome ++ escShowCursor
        ++ "===== " ++ c.username ++ "@cer.sh chat =====\r\n"
        ++ "Online users: " ++ renderRoster (List.insertionSort (· ≤ ·) roster) ++ "\r\n"
        ++ "Type your message and press Enter, (5 second cooldown). Ctrl+C to quit. Ctrl+L to refresh.\r\n\r\n"
        ++ String.join ((c.messages.drop (c.messages.length - windowSize)).map formatMessage)
        ++ "> " ++ c.currentInput
    ∧ List.Sorted (· ≤ ·) (List.insertionSort (· ≤ ·) roster)
    ∧ List.Perm (List.insertionSort (· ≤ ·) roster) roster
    ∧ (messageWindow c.messages).length = min windowSize c.messages.length
    ∧ (∀ m : Message, m.sender = "System" →
        formatMessage m
          = "[" ++ formatTimestamp m.timestamp ++ "] ** " ++ m.content ++ " **\r\n")
    ∧ (∀ m : Message, m.sender ≠ "System" →
        formatMessage m
          = "[" ++ formatTimestamp m.timestamp ++ "] " ++ m.sender ++ ": " ++ m.content ++ "\r\n") := by
  refine ⟨?_, List.sorted_insertionSort (· ≤ ·) roster,
    List.perm_insertionSort (· ≤ ·) roster, messageWindow_length c.messages, ?_, ?_⟩
  · show refreshOutput c.username roster c.messages ++ c.currentInput = _
    unfold refreshOutput
    rw [messageWindow_eq_drop]
  · intro m hm
    simp [formatMessage, hm]
  · intro m hm
    simp [formatMessage, hm]

/-- A System message at timestamp 01:02:03 (in milliseconds). -/
def sysMsg : Message :=
  { id := 1, sender := "System", content := "al joined the chat", timestamp := 3723000 }

/-- Witness for C8 at a concrete session, roster and System message. -/
theorem C8_render_witness :
    sysMsg.sender = "System"
    ∧ formatMessage sysMsg
      = "[" ++ formatTimestamp sysMsg.timestamp ++ "] ** " ++ sysMsg.content ++ " **\r\n" := by
  exact ⟨rfl, (C8_render sampleTUI ["bob", "alice"]).2.2.2.2.1 sysMsg rfl⟩

/-- C9 (the race in the `refreshing` guard): the guard's read and its set are
two separate operations on an unsynchronized boolean, so two concurrently
started renders can both observe `refreshing = false` and both proceed into
the drawing body — after the interleaving check-A, check-B, set-A, set-B both
invocations are in the body at once, contradicting the claim that at no
reachable state two renders execute their drawing body simultaneously.  The
remainder of the claim does hold in this model: a render that loses the
check returns as `dropped` having written nothing, and no action can ever
move it again (no queued or catch-up render). -/
theorem C9_refresh_guard_race :
    runRender renderInit
        [(true, RenderAction.check), (false, RenderAction.check),
         (true, RenderAction.setFlag), (false, RenderAction.setFlag)]
      = some { refreshing := true, pcA := RenderPC.body, pcB := RenderPC.body,
               wroteA := false, wroteB := false }
    ∧ runRender renderInit
        [(true, RenderAction.check), (true, RenderAction.setFlag),
         (false, RenderAction.check), (true, RenderAction.finish)]
      = some { refreshing := false, pcA := RenderPC.done, pcB := RenderPC.dropped,
               wroteA := true, wroteB := false }
    ∧ (∀ a : RenderAction, ∀ flag : Bool, ∀ w : Bool,
        stepTask flag RenderPC.dropped w a = none) := by
  refine ⟨by decide, by decide, ?_⟩
  intro a flag w
  cases a <;> rfl

/-- C10: a fresh session's `lastSent` is its creation time, so an enter
keystroke less than 5 seconds after session start is silently ignored — the
state (whatever the typed buffer is) is unchanged, nothing is posted and
nothing is written — even though the client has never posted a message. -/
theorem C10_initial_cooldown (u : String) (t0 t : Nat) (buf : String)
    (h : t - t0 < cooldownMs) :
    (NewChatTUI u t0).lastSent = t0
    ∧ handleEnter { NewChatTUI u t0 with currentInput := buf } t
      = ({ NewChatTUI u t0 with currentInput := buf }, none, "") := by
  refine ⟨rfl, ?_⟩
  simp [handleEnter, NewChatTUI, h]

/-- Witness for C10: a session created at time 0 ignores an enter at 4999 ms
despite a nonempty buffer. -/
theorem C10_initial_cooldown_witness :
    4999 - 0 < cooldownMs
    ∧ handleEnter { NewChatTUI "al" 0 with currentInput := "hello" } 4999
      = ({ NewChatTUI "al" 0 with currentInput := "hello" }, none, "") := by
  exact ⟨by decide, (C10_initial_cooldown "al" 0 4999 "hello" (by decide)).2⟩

end SSHChat
